import Mathlib

/-!
Server lifecycle manager of ngvoonchin/todo

A shallow embedding of `cmd/server.go` (`InitServer`) and of
`internal/logs/logger.go` (`WithCtx`, `Logger.Info`, ..., `Logger.With`).

Data

* Go errors are values of `GoError`; `errorsIs` is `errors.Is` on the unwrap
  chain.
* A `*slog.Logger` is the pair of the minimum level of its handler and the
  arguments attached with `With`; a logging call hands it one `Record`.
* A `context.Context` is a handle (`Context`) whose mutable part is a
  `CtxState`: its deadline and its `Err()`, nil until the context is done.

The run of `InitServer`

`InitServer` starts two goroutines under an `errgroup.Group` and waits for
them. A run is a path of a labelled transition system: one `Event` is one
atomic action of the serve goroutine (lines 39-46), of the shutdown watcher
(lines 48-55), of the goroutine that called `InitServer` (lines 57-61), or of
the environment (time passes, the caller cancels, a connection finishes).
`step` is the executable transition function, `run` folds it over a schedule,
and every interleaving of the goroutines is some list of events.

Library behaviour the transitions rely on

* `errgroup`: a goroutine that returns a non-nil error stores it if it is
  the first one and cancels the group context; `Wait` blocks until both
  goroutines have returned, cancels the group context and returns the
  stored error.
* `context`: `Err()` is set once; a done parent cancels its children with its
  own error, also a child that is created after the parent is done; a
  deadline cancels with `DeadlineExceeded`.
* `net/http`: `ListenAndServe` returns `ErrServerClosed` when the server is
  shutting down, the error of `net.Listen` when binding fails, and otherwise
  serves until `Accept` fails, returning `ErrServerClosed` if the server is
  shutting down by then and the accept error if not; the listener is closed
  when `Serve` returns. `Shutdown` sets the shutdown flag and closes the
  registered listeners (taken as one action, closing without error), waits
  until `Serve` has left `Accept` and unregistered its listener
  (`listenerGroup.Wait`), and then polls: it returns nil once no connection
  has a request in flight, and the error of its context when that context
  is done. It never closes a connection with a request in flight. Idle
  connections, which `Shutdown` closes in every round, are not counted in
  `active`.
-/

namespace Todo

/-! ## Errors -/

/-- Go `error` values that occur in a run of the server. -/
inductive GoError where
  /-- The sentinel `http.ErrServerClosed`. -/
  | ErrServerClosed
  /-- The sentinel `context.Canceled`. -/
  | Canceled
  /-- The sentinel `context.DeadlineExceeded`. -/
  | DeadlineExceeded
  /-- Any other leaf error, for instance a `*net.OpError` of bind or accept. -/
  | opError (msg : String)
  /-- An error that wraps another one (its `Unwrap` returns `inner`). -/
  | wrapped (msg : String) (inner : GoError)
  deriving DecidableEq, Repr

/-- Go `errors.Is(err, target)` for comparable errors: `err` or an error in
its unwrap chain equals `target`. -/
def errorsIs : GoError → GoError → Bool
  | .wrapped m inner, target =>
      decide (GoError.wrapped m inner = target) || errorsIs inner target
  | e, target => decide (e = target)

/-! ## Logging (`internal/logs/logger.go`) -/

/-- Severity levels of `log/slog`, ordered Debug < Info < Warn < Error. -/
inductive Level where
  | debug
  | info
  | warn
  | error
  deriving DecidableEq, Repr

/-- The numeric value of a `slog.Level`. -/
def Level.toInt : Level → Int
  | .debug => -4
  | .info => 0
  | .warn => 4
  | .error => 8

/-- A value passed as `any` to a logging call. -/
inductive Value where
  | str (s : String)
  | int (n : Int)
  | bool (b : Bool)
  | err (e : GoError)
  deriving DecidableEq, Repr

/-- A `context.Context` as the logger sees it: a handle. -/
abbrev Context := Nat

/-- What one logging call hands to a `*slog.Logger`. -/
structure Record where
  level : Level
  ctx : Context
  msg : String
  fields : List Value
  deriving DecidableEq, Repr

/-- A `*slog.Logger`: the minimum level of its handler and the arguments
attached so far by `With`. -/
structure SlogLogger where
  minLevel : Level
  attrs : List Value
  deriving DecidableEq, Repr

/-- The package variable `defaultLogger` as `init` sets it: a JSON handler
on stdout at `slog.LevelInfo`, with no attribute. -/
def defaultLogger : SlogLogger :=
  { minLevel := Level.info, attrs := [] }

/-- Method `(*slog.Logger).With(args...)`: the receiver itself when `args` is
empty, otherwise a copy whose handler carries the new arguments after the
old ones. -/
def SlogLogger.With (l : SlogLogger) (args : List Value) : SlogLogger :=
  if args.isEmpty then l else { l with attrs := l.attrs ++ args }

/-- The record of a call `l.InfoContext(ctx, msg, args...)` and its siblings:
the handler attributes come first, the arguments of the call after them. -/
def SlogLogger.logContext (l : SlogLogger) (lvl : Level) (ctx : Context)
    (msg : String) (args : List Value) : Record :=
  { level := lvl, ctx := ctx, msg := msg, fields := l.attrs ++ args }

/-- Method `Handler.Enabled`: the handler writes a record whose level is at least
its minimum level. -/
def SlogLogger.enabled (l : SlogLogger) (r : Record) : Bool :=
  decide (l.minLevel.toInt ≤ r.level.toInt)

/-- The struct `Logger` of `logger.go`. -/
structure Logger where
  logger : SlogLogger
  ctx : Context
  deriving DecidableEq, Repr

/-- Function `WithCtx(ctx)`: a pointer to a fresh `Logger`; `none` stands for the nil
pointer. -/
def WithCtx (ctx : Context) : Option Logger :=
  some { logger := defaultLogger, ctx := ctx }

/-- Method `(*Logger).Info`: the records handed to the wrapped slog logger. -/
def Logger.Info (l : Logger) (msg : String) (args : List Value) : List Record :=
  [l.logger.logContext Level.info l.ctx msg args]

/-- Method `(*Logger).Error`: the records handed to the wrapped slog logger. -/
def Logger.Error (l : Logger) (msg : String) (args : List Value) : List Record :=
  [l.logger.logContext Level.error l.ctx msg args]

/-- Method `(*Logger).Warn`: the records handed to the wrapped slog logger. -/
def Logger.Warn (l : Logger) (msg : String) (args : List Value) : List Record :=
  [l.logger.logContext Level.warn l.ctx msg args]

/-- Method `(*Logger).Debug`: the records handed to the wrapped slog logger. -/
def Logger.Debug (l : Logger) (msg : String) (args : List Value) : List Record :=
  [l.logger.logContext Level.debug l.ctx msg args]

/-- Method `(*Logger).With`: a pointer to a new `Logger` on the same context. -/
def Logger.With (l : Logger) (args : List Value) : Option Logger :=
  some { logger := l.logger.With args, ctx := l.ctx }

/-- The records a call on a possibly nil `*Logger` hands over (a nil receiver
hands over nothing). -/
def handed (l : Option Logger) (call : Logger → List Record) : List Record :=
  match l with
  | some x => call x
  | none => []

/-- The records of `recs` that the handler of `l` writes. -/
def written (l : Option Logger) (recs : List Record) : List Record :=
  match l with
  | some x => recs.filter x.logger.enabled
  | none => []

/-! ## Contexts (`context` package) -/

/-- The mutable part of a context: its deadline, if any, and `Err()`, which is
nil until the context is done and never changes afterwards. -/
structure CtxState where
  deadline : Option Nat
  err : Option GoError
  deriving DecidableEq, Repr

/-- The channel `ctx.Done()` is closed. -/
def CtxState.done (c : CtxState) : Bool := c.err.isSome

/-- The cancel step of a context: the first cause sticks. -/
def CtxState.cancel (c : CtxState) (e : GoError) : CtxState :=
  if c.err.isSome then c else { c with err := some e }

/-- Propagation from a parent: a done parent cancels the child with the
error of the parent. -/
def CtxState.inherit (c : CtxState) (parent : CtxState) : CtxState :=
  match parent.err with
  | some e => c.cancel e
  | none => c

/-- The timer of a context with a deadline: at or after the deadline the
context is cancelled with `DeadlineExceeded`. -/
def CtxState.expire (c : CtxState) (now : Nat) : CtxState :=
  match c.deadline with
  | some d => if d ≤ now then c.cancel GoError.DeadlineExceeded else c
  | none => c

/-- Function `context.WithCancel(parent)` at creation: the deadline is that of the parent and
a parent that is already done cancels the child at once. -/
def withCancel (parent : CtxState) : CtxState :=
  { deadline := parent.deadline, err := parent.err }

/-- Function `context.WithDeadline(parent, d)` at time `now`: when the deadline
of the parent is earlier it is `WithCancel(parent)`; otherwise the child gets
deadline `d`, is cancelled at once by a parent that is already done, and
else is cancelled with `DeadlineExceeded` when `d` has already passed. -/
def withDeadline (parent : CtxState) (d now : Nat) : CtxState :=
  match parent.deadline with
  | some cur =>
      if cur < d then withCancel parent
      else (CtxState.inherit { deadline := some d, err := none } parent).expire now
  | none => (CtxState.inherit { deadline := some d, err := none } parent).expire now

/-- Function `context.WithTimeout(parent, timeout)` is
`WithDeadline(parent, time.Now().Add(timeout))`. -/
def withTimeout (parent : CtxState) (now timeout : Nat) : CtxState :=
  withDeadline parent (now + timeout) now

/-! ## `cmd/server.go` -/

/-- Constant `ReadTimeout`, in seconds. -/
def ReadTimeout : Nat := 5

/-- Constant `WriteTimeout`, in seconds. -/
def WriteTimeout : Nat := 10

/-- Constant `IdleTimeout`, in seconds. -/
def IdleTimeout : Nat := 120

/-- Constant `ShutdownTimeout`, in seconds. -/
def ShutdownTimeout : Nat := 10

/-- The local `logPrefix` of `InitServer`. -/
def logPrefix : String := "[server][InitServer]"

/-- Handle of the context the caller passes to `InitServer`. -/
def callerCtx : Context := 0

/-- Handle of the context returned by `errgroup.WithContext`; from line 37 on
the name `ctx` denotes this one. -/
def groupCtx : Context := 1

/-- The arguments of one call of `InitServer`: the state of the caller's
context at the call, the port, and the time of the call. -/
structure Config where
  incoming : CtxState
  httpPort : String
  start : Nat
  deriving DecidableEq, Repr

/-- The two goroutines started with `g.Go`. -/
inductive Activity where
  | serve
  | watcher
  deriving DecidableEq, Repr

/-- The listening socket of the `http.Server`. -/
inductive Listener where
  | unbound
  | open
  | closed
  deriving DecidableEq, Repr

/-- Program counter of the serve goroutine (lines 39-46).  `ListenAndServe`
always returns a non-nil error. -/
inductive ServePC where
  | start
  | logged
  | bound
  | accepting
  | returning (r : GoError)
  | done (r : GoError)
  deriving DecidableEq, Repr

/-- Program counter of the shutdown watcher (lines 48-55). -/
inductive WatcherPC where
  | waiting
  | woke
  | logged
  | derived
  | polling
  | returning (r : Option GoError)
  | done (r : Option GoError)
  deriving DecidableEq, Repr

/-- Program counter of the goroutine that called `InitServer` (lines 57-61):
blocked in `g.Wait()`, inside the `if` before the log call, or returned. -/
inductive MainPC where
  | waiting
  | failing (e : GoError)
  | returned (r : Option GoError)
  deriving DecidableEq, Repr

/-- The state of one run of `InitServer`. -/
structure State where
  /-- The port argument. -/
  httpPort : String
  /-- The clock, in seconds. -/
  now : Nat
  /-- The caller's context. -/
  incoming : CtxState
  /-- The context of the errgroup (`ctx` after line 37). -/
  gctx : CtxState
  /-- The watcher's `shutdownCtx`, once derived. -/
  shutdownCtx : Option CtxState
  /-- The field `err` of the errgroup, set once. -/
  gErr : Option GoError
  /-- The flag `inShutdown` of the `http.Server`. -/
  inShutdown : Bool
  /-- The listening socket. -/
  listener : Listener
  /-- The listener is registered with the server (`trackListener`). -/
  tracked : Bool
  /-- Number of open connections with a request in flight. -/
  active : Nat
  serve : ServePC
  watcher : WatcherPC
  main : MainPC
  /-- The records written by the handler of the default logger, oldest first. -/
  log : List Record
  /-- The goroutines that have returned into the errgroup, with their results,
  in the order in which they finished. -/
  finished : List (Activity × Option GoError)
  deriving DecidableEq, Repr

/-- One atomic action of a run. -/
inductive Event where
  /-- Environment: `d` seconds pass. -/
  | tick (d : Nat)
  /-- Environment: the caller's context is cancelled. -/
  | cancelIncoming
  /-- Environment: an in-flight connection finishes and is closed. -/
  | connDone
  /-- Serve: line 44, the start-up log call. -/
  | serveLog
  /-- Serve: `ListenAndServe` up to `net.Listen`, which fails with `bind`
  when that is an error. -/
  | serveListen (bind : Option GoError)
  /-- Serve: `Serve` registers the listener (`trackListener`). -/
  | serveTrack
  /-- Serve: `Accept` returns a connection, which starts serving a request. -/
  | accept
  /-- Serve: `Accept` fails because the listener has been closed. -/
  | serveAcceptClosed
  /-- Serve: `Accept` on the open listener fails with the fatal error `e`. -/
  | serveAcceptFail (e : GoError)
  /-- Serve: the function passed to `g.Go` returns into the errgroup. -/
  | serveReturn
  /-- Watcher: `<-ctx.Done()` (line 49) is passed. -/
  | watcherWake
  /-- Watcher: line 50, the shutdown log call. -/
  | watcherLog
  /-- Watcher: line 52, `context.WithTimeout(ctx, ShutdownTimeout)`. -/
  | watcherDerive
  /-- Watcher: `server.Shutdown` starts: it sets `inShutdown` and closes the
  registered listeners. -/
  | watcherShutdown
  /-- Watcher: one round of the polling loop of `server.Shutdown`, which is
  entered only when no listener is registered any more. -/
  | watcherPoll
  /-- Watcher: the deferred `cancel()` runs and the function returns into
  the errgroup. -/
  | watcherReturn
  /-- Main: `g.Wait()` returns and the condition of line 57 is evaluated. -/
  | mainWait
  /-- Main: lines 58-59, the error log call and `return err`. -/
  | mainLogError
  deriving DecidableEq, Repr

/-- The records that reach the output when `call` is made on the logger `l`. -/
def logCall (l : Option Logger) (call : Logger → List Record) : List Record :=
  written l (handed l call)

/-- Line 44: `logs.WithCtx(ctx).Info("%s[Server starting on :%s]", logPrefix, httpPort)`. -/
def startRecords (httpPort : String) : List Record :=
  logCall (WithCtx groupCtx)
    (fun l => l.Info "%s[Server starting on :%s]" [Value.str logPrefix, Value.str httpPort])

/-- Line 50: `logs.WithCtx(ctx).Info("%s[Gracefully shutting down server...]", logPrefix)`. -/
def shutdownRecords : List Record :=
  logCall (WithCtx groupCtx)
    (fun l => l.Info "%s[Gracefully shutting down server...]" [Value.str logPrefix])

/-- Line 58: `logs.WithCtx(ctx).Error("%s[Server error: %v]", logPrefix, err)`. -/
def errorRecords (e : GoError) : List Record :=
  logCall (WithCtx groupCtx)
    (fun l => l.Error "%s[Server error: %v]" [Value.str logPrefix, Value.err e])

/-- Lines 57-61 after `g.Wait()` has returned `waitErr`: the error that
`InitServer` returns. -/
def aggregate (waitErr : Option GoError) : Option GoError :=
  match waitErr with
  | some e => if !errorsIs e GoError.ErrServerClosed then some e else none
  | none => none

/-- The cancel function of the errgroup context: it cancels that context
with `context.Canceled`, and a derived `shutdownCtx` with it. -/
def State.cancelGroup (s : State) : State :=
  let g := s.gctx.cancel GoError.Canceled
  { s with gctx := g, shutdownCtx := s.shutdownCtx.map (fun c => c.inherit g) }

/-- A goroutine of the errgroup returns `r`: the first non-nil error is
stored and cancels the group context (`errOnce`), then the goroutine counts
as finished. -/
def State.groupDone (s : State) (a : Activity) (r : Option GoError) : State :=
  let t : State :=
    match r, s.gErr with
    | some e, none => State.cancelGroup { s with gErr := some e }
    | _, _ => s
  { t with finished := t.finished ++ [(a, r)] }

/-- The state at the call of `g.Wait()`: `errgroup.WithContext` has derived
the group context from the caller's and both goroutines have been started. -/
def init (cfg : Config) : State :=
  { httpPort := cfg.httpPort
    now := cfg.start
    incoming := cfg.incoming
    gctx := withCancel cfg.incoming
    shutdownCtx := none
    gErr := none
    inShutdown := false
    listener := Listener.unbound
    tracked := false
    active := 0
    serve := ServePC.start
    watcher := WatcherPC.waiting
    main := MainPC.waiting
    log := []
    finished := [] }

/-- The transition function: the state after `ev`, or `none` when `ev` is not
enabled in `s`. -/
def step (s : State) (ev : Event) : Option State :=
  match ev with
  | .tick d =>
      let now := s.now + d
      let inc := s.incoming.expire now
      let g := s.gctx.inherit inc
      some { s with
        now := now, incoming := inc, gctx := g,
        shutdownCtx := s.shutdownCtx.map (fun c => (c.inherit g).expire now) }
  | .cancelIncoming =>
      let inc := s.incoming.cancel GoError.Canceled
      let g := s.gctx.inherit inc
      some { s with
        incoming := inc, gctx := g,
        shutdownCtx := s.shutdownCtx.map (fun c => c.inherit g) }
  | .connDone =>
      if 0 < s.active then some { s with active := s.active - 1 } else none
  | .serveLog =>
      match s.serve with
      | .start => some { s with serve := ServePC.logged, log := s.log ++ startRecords s.httpPort }
      | _ => none
  | .serveListen bind =>
      match s.serve with
      | .logged =>
          if s.inShutdown then some { s with serve := ServePC.returning GoError.ErrServerClosed }
          else
            match bind with
            | some e => some { s with serve := ServePC.returning e }
            | none => some { s with serve := ServePC.bound, listener := Listener.open }
      | _ => none
  | .serveTrack =>
      match s.serve with
      | .bound =>
          if s.inShutdown then
            some { s with serve := ServePC.returning GoError.ErrServerClosed,
                          listener := Listener.closed }
          else some { s with serve := ServePC.accepting, tracked := true }
      | _ => none
  | .accept =>
      match s.serve, s.listener with
      | .accepting, .open => some { s with active := s.active + 1 }
      | _, _ => none
  | .serveAcceptClosed =>
      match s.serve, s.listener with
      | .accepting, .closed =>
          some { s with
            serve := ServePC.returning (if s.inShutdown then GoError.ErrServerClosed
                                        else GoError.opError "use of closed network connection"),
            tracked := false }
      | _, _ => none
  | .serveAcceptFail e =>
      match s.serve, s.listener with
      | .accepting, .open =>
          some { s with
            serve := ServePC.returning (if s.inShutdown then GoError.ErrServerClosed else e),
            listener := Listener.closed, tracked := false }
      | _, _ => none
  | .serveReturn =>
      match s.serve with
      | .returning r =>
          let t : State := { s with serve := ServePC.done r }
          some (t.groupDone Activity.serve (some r))
      | _ => none
  | .watcherWake =>
      match s.watcher with
      | .waiting => if s.gctx.done then some { s with watcher := WatcherPC.woke } else none
      | _ => none
  | .watcherLog =>
      match s.watcher with
      | .woke => some { s with watcher := WatcherPC.logged, log := s.log ++ shutdownRecords }
      | _ => none
  | .watcherDerive =>
      match s.watcher with
      | .logged =>
          some { s with watcher := WatcherPC.derived,
                        shutdownCtx := some (withTimeout s.gctx s.now ShutdownTimeout) }
      | _ => none
  | .watcherShutdown =>
      match s.watcher with
      | .derived =>
          some { s with
            watcher := WatcherPC.polling, inShutdown := true,
            listener := if s.tracked && decide (s.listener = Listener.open)
                        then Listener.closed else s.listener }
      | _ => none
  | .watcherPoll =>
      match s.watcher, s.shutdownCtx with
      | .polling, some c =>
          if s.tracked then none
          else if s.active = 0 then some { s with watcher := WatcherPC.returning none }
          else if c.done then some { s with watcher := WatcherPC.returning c.err }
          else some s
      | _, _ => none
  | .watcherReturn =>
      match s.watcher with
      | .returning r =>
          let t : State :=
            { s with
              watcher := WatcherPC.done r,
              shutdownCtx := s.shutdownCtx.map (fun c => c.cancel GoError.Canceled) }
          some (t.groupDone Activity.watcher r)
      | _ => none
  | .mainWait =>
      match s.main, s.serve, s.watcher with
      | .waiting, .done _, .done _ =>
          let t := s.cancelGroup
          match aggregate t.gErr with
          | some e => some { t with main := MainPC.failing e }
          | none => some { t with main := MainPC.returned none }
      | _, _, _ => none
  | .mainLogError =>
      match s.main with
      | .failing e =>
          some { s with main := MainPC.returned (some e), log := s.log ++ errorRecords e }
      | _ => none

/-- The state after a schedule, or `none` when one of its events is not
enabled. -/
def run (s : State) : List Event → Option State
  | [] => some s
  | ev :: evs => (step s ev).bind (fun t => run t evs)


/-! ## Invariants of a run -/

/-- Progress of the serve goroutine, as a number. -/
def ServePC.rank : ServePC → Nat
  | .start => 0
  | .logged => 1
  | .bound => 2
  | .accepting => 3
  | .returning _ => 4
  | .done _ => 5

/-- Progress of the watcher goroutine, as a number. -/
def WatcherPC.rank : WatcherPC → Nat
  | .waiting => 0
  | .woke => 1
  | .logged => 2
  | .derived => 3
  | .polling => 4
  | .returning _ => 5
  | .done _ => 6

/-- Progress of the calling goroutine, as a number. -/
def MainPC.rank : MainPC → Nat
  | .waiting => 0
  | .failing _ => 1
  | .returned _ => 2

/-- The completion record `fin` agrees with the program counters of the two
goroutines: it holds exactly the goroutines that are done, with their
results. -/
def finRel (sv : ServePC) (w : WatcherPC) (fin : List (Activity × Option GoError)) : Prop :=
  match sv, w with
  | .done r, .done x =>
      fin = [(Activity.serve, some r), (Activity.watcher, x)] ∨
      fin = [(Activity.watcher, x), (Activity.serve, some r)]
  | .done r, _ => fin = [(Activity.serve, some r)]
  | _, .done x => fin = [(Activity.watcher, x)]
  | _, _ => fin = []

/-- The completion record of a state agrees with its program counters. -/
def finOK (s : State) : Prop := finRel s.serve s.watcher s.finished

/-- The Error-level records of a log. -/
def errorEntries (log : List Record) : List Record :=
  log.filter (fun r => decide (r.level = Level.error))

/-- The Error-level records that the calling goroutine has written when it
is at `pc`. -/
def expectedErrors : MainPC → List Record
  | .returned (some e) => errorRecords e
  | _ => []

/-- Invariant of the contexts: the group context follows the caller's, the
watcher is past line 49 only when the group context is done, and the
shutdown context exists from line 52 on and is done. -/
structure CtxInv (s : State) : Prop where
  gctx_inc : s.incoming.done = true → s.gctx.done = true
  woke : 1 ≤ s.watcher.rank → s.gctx.done = true
  sctx_done : ∀ c, s.shutdownCtx = some c → c.done = true
  sctx_some : 3 ≤ s.watcher.rank → s.shutdownCtx.isSome = true

/-- Invariant of the join: the calling goroutine is past `g.Wait()` only
when both goroutines of the group have finished. -/
structure JoinInv (s : State) : Prop where
  join : 1 ≤ s.main.rank → s.serve.rank = 5 ∧ s.watcher.rank = 6

/-- Invariant of the listening socket. -/
structure NetInv (s : State) : Prop where
  flag : s.inShutdown = true ↔ 4 ≤ s.watcher.rank
  unbound : s.serve.rank ≤ 1 → s.listener = Listener.unbound ∧ s.tracked = false
  bound : s.serve.rank = 2 → s.listener = Listener.open ∧ s.tracked = false
  acc : s.serve.rank = 3 →
    s.tracked = true ∧ s.listener = (if s.inShutdown then Listener.closed else Listener.open)
  exited : 4 ≤ s.serve.rank → s.listener ≠ Listener.open ∧ s.tracked = false

/-- Invariant of a socket that was never bound: no connection exists and
`Shutdown` had nothing to wait for. -/
structure BindInv (s : State) : Prop where
  idle : s.listener = Listener.unbound → s.active = 0
  clean : s.listener = Listener.unbound →
    ∀ w, s.watcher = WatcherPC.returning w ∨ s.watcher = WatcherPC.done w → w = none

/-- Invariant of the log. -/
structure LogInv (s : State) : Prop where
  logged : 2 ≤ s.watcher.rank → ∀ r ∈ shutdownRecords, r ∈ s.log
  errs : errorEntries s.log = expectedErrors s.main

/-- Invariant of the errgroup: its error is the first non-nil result in the
order of completion, and the calling goroutine holds the aggregate of it. -/
structure GroupInv (s : State) : Prop where
  first : s.gErr = s.finished.findSome? (fun p => p.2)
  fin : finOK s
  failing : ∀ e, s.main = MainPC.failing e → aggregate s.gErr = some e
  result : ∀ r, s.main = MainPC.returned r → r = aggregate s.gErr

/-- Facts that hold in every state of every run. -/
structure Inv (s : State) : Prop where
  ctx : CtxInv s
  join : JoinInv s
  net : NetInv s
  log : LogInv s
  group : GroupInv s

/-- The remaining steps of the calling goroutine once it is scheduled: it
leaves `g.Wait()`, and on the error path logs and returns. -/
def finishMain (s : State) : Option State :=
  match s.main with
  | .waiting =>
      (step s Event.mainWait).bind (fun t =>
        match t.main with
        | .failing _ => step t Event.mainLogError
        | _ => some t)
  | .failing _ => step s Event.mainLogError
  | .returned _ => some s

/-- The value `InitServer` has returned at the end of the schedule `evs`:
`none` when the schedule cannot be run or `InitServer` has not returned by
its end, `some r` when it has returned `r` (`r = none` for nil). -/
def InitServer (cfg : Config) (evs : List Event) : Option (Option GoError) :=
  match run (init cfg) evs with
  | some s =>
      match s.main with
      | .returned r => some r
      | _ => none
  | none => none

/-- The record of line 50. -/
def shutdownRecord : Record :=
  { level := Level.info, ctx := groupCtx,
    msg := "%s[Gracefully shutting down server...]", fields := [Value.str logPrefix] }

/-- The record of line 58 for the error `e`. -/
def errorRecord (e : GoError) : Record :=
  { level := Level.error, ctx := groupCtx,
    msg := "%s[Server error: %v]", fields := [Value.str logPrefix, Value.err e] }

/-! ## Concrete runs -/

/-- A call on port 8080 at time 0 with a context that is not done and has no
deadline. -/
def cfgLive : Config :=
  { incoming := { deadline := none, err := none }, httpPort := "8080", start := 0 }

/-- The server comes up and accepts one connection, whose request is in
flight when the caller cancels; the watcher wakes, derives its context and
starts `Shutdown`. -/
def schedToShutdown : List Event :=
  [Event.serveLog, Event.serveListen none, Event.serveTrack, Event.accept,
   Event.cancelIncoming, Event.watcherWake, Event.watcherLog, Event.watcherDerive]

/-- After `schedToShutdown`, `Shutdown` closes the listener, `Accept` fails
on it, `Shutdown` gives up on the open connection, and the serve goroutine
returns into the group before the watcher does. -/
def schedServeFirst : List Event :=
  schedToShutdown ++
  [Event.watcherShutdown, Event.serveAcceptClosed, Event.watcherPoll, Event.serveReturn,
   Event.watcherReturn, Event.mainWait]

/-- As `schedServeFirst`, but the watcher returns into the group before the
serve goroutine does. -/
def schedWatcherFirst : List Event :=
  schedToShutdown ++
  [Event.watcherShutdown, Event.serveAcceptClosed, Event.watcherPoll, Event.watcherReturn,
   Event.serveReturn, Event.mainWait, Event.mainLogError]

/-- A fatal accept error of the serve goroutine. -/
def acceptError : GoError := GoError.opError "accept tcp [::]:8080: accept4: bad file descriptor"

/-- A bind error of the serve goroutine. -/
def bindError : GoError := GoError.opError "listen tcp :8080: bind: address already in use"

/-- The call of `Accept` fails fatally just as the caller cancels with one request in
flight; the watcher, whose `Shutdown` gives up at once, returns into the group
before the serve goroutine does. -/
def schedFatalRace : List Event :=
  schedToShutdown ++
  [Event.serveAcceptFail acceptError, Event.watcherShutdown, Event.watcherPoll,
   Event.watcherReturn, Event.serveReturn, Event.mainWait, Event.mainLogError]

/-- Binding fails; the error cancels the group context, the watcher wakes
and runs the shutdown path, and the call returns the bind error. -/
def schedBindFail : List Event :=
  [Event.serveLog, Event.serveListen (some bindError), Event.serveReturn, Event.watcherWake,
   Event.watcherLog, Event.watcherDerive, Event.watcherShutdown, Event.watcherPoll,
   Event.watcherReturn, Event.mainWait, Event.mainLogError]

/-- The caller cancels before any connection arrives; the server shuts
down in order. -/
def schedClean : List Event :=
  [Event.serveLog, Event.serveListen none, Event.serveTrack, Event.cancelIncoming,
   Event.watcherWake, Event.watcherLog, Event.watcherDerive, Event.watcherShutdown,
   Event.serveAcceptClosed, Event.watcherPoll, Event.serveReturn, Event.watcherReturn,
   Event.mainWait]

/-- The server comes up and the caller cancels while no connection has
arrived. -/
def schedCancelIdle : List Event :=
  [Event.serveLog, Event.serveListen none, Event.serveTrack, Event.cancelIncoming]

/-- The server is up with no connection and the caller has cancelled when
`Accept` fails fatally on the open listener; the watcher then shuts the
server down and ends with nil. -/
def schedIdleAcceptFail : List Event :=
  [Event.serveLog, Event.serveListen none, Event.serveTrack, Event.cancelIncoming,
   Event.serveAcceptFail acceptError, Event.serveReturn, Event.watcherWake, Event.watcherLog,
   Event.watcherDerive, Event.watcherShutdown, Event.watcherPoll, Event.watcherReturn,
   Event.mainWait, Event.mainLogError]

/-- The state in which the schedule `evs` ends (the initial state when `evs`
cannot be run). -/
def endState (cfg : Config) (evs : List Event) : State :=
  (run (init cfg) evs).getD (init cfg)

/-! ## Runs on a bindable address on which no connection arrives -/

/-- The events of a run in which binding succeeds, `Accept` does not fail
while the listener is open, and no connection is accepted. -/
def Event.quiet : Event → Bool
  | .accept => false
  | .serveAcceptFail _ => false
  | .serveListen (some _) => false
  | _ => true

/-- The events that are actions of one of the three goroutines (the others
are actions of the environment). -/
def Event.internal : Event → Bool
  | .tick _ => false
  | .cancelIncoming => false
  | .connDone => false
  | _ => true

/-- An upper bound on the number of actions the three goroutines still have
to take. -/
def remaining (s : State) : Nat :=
  (5 - s.serve.rank) + (6 - s.watcher.rank) + (2 - s.main.rank)

/-- The next action of the watcher, when it has one that is enabled. -/
def watcherNext (s : State) : Option Event :=
  match s.watcher with
  | .waiting => if s.gctx.done then some Event.watcherWake else none
  | .woke => some Event.watcherLog
  | .logged => some Event.watcherDerive
  | .derived => some Event.watcherShutdown
  | .polling => if s.tracked then none else some Event.watcherPoll
  | .returning _ => some Event.watcherReturn
  | .done _ => none

/-- The next action of the serve goroutine on a bindable address, when it
has one that is enabled. -/
def serveNext (s : State) : Option Event :=
  match s.serve with
  | .start => some Event.serveLog
  | .logged => some (Event.serveListen none)
  | .bound => some Event.serveTrack
  | .accepting =>
      if s.listener = Listener.closed then some Event.serveAcceptClosed else none
  | .returning _ => some Event.serveReturn
  | .done _ => none

/-- The next action of the calling goroutine, when it has one that is
enabled. -/
def mainNext (s : State) : Option Event :=
  match s.main, s.serve, s.watcher with
  | .waiting, .done _, .done _ => some Event.mainWait
  | .failing _, _, _ => some Event.mainLogError
  | _, _, _ => none

/-- A scheduler: the watcher runs when it can, else the serve goroutine,
else the calling goroutine. -/
def nextEvent (s : State) : Option Event :=
  match watcherNext s with
  | some ev => some ev
  | none =>
      match serveNext s with
      | some ev => some ev
      | none => mainNext s

/-- The state after at most `n` actions chosen by `nextEvent`. -/
def drive : Nat → State → State
  | 0, s => s
  | n + 1, s =>
      match nextEvent s with
      | some ev =>
          match step s ev with
          | some t => drive n t
          | none => s
      | none => s

/-- Invariant of a quiet run: no connection is open, the serve goroutine
can only end with `http.ErrServerClosed` and the watcher with nil. -/
structure QuietInv (s : State) : Prop where
  idle : s.active = 0
  serve : ∀ r, s.serve = ServePC.returning r ∨ s.serve = ServePC.done r →
    r = GoError.ErrServerClosed
  watcher : ∀ w, s.watcher = WatcherPC.returning w ∨ s.watcher = WatcherPC.done w → w = none

/-- A pre-cancelled call: the caller's context is already done. -/
def cfgCancelled : Config :=
  { incoming := { deadline := none, err := some GoError.Canceled },
    httpPort := "8080", start := 0 }

/-! ## Lemmas on contexts and on the errgroup -/

theorem cancel_done (c : CtxState) (e : GoError) : (c.cancel e).done = true := by
  unfold CtxState.cancel CtxState.done
  split <;> simp_all

theorem cancel_keeps (c : CtxState) (e : GoError) (h : c.done = true) : c.cancel e = c := by
  unfold CtxState.cancel CtxState.done at *
  simp [h]

theorem inherit_keeps (c p : CtxState) (h : c.done = true) : c.inherit p = c := by
  unfold CtxState.inherit
  split
  · exact cancel_keeps _ _ h
  · rfl

theorem inherit_done (c p : CtxState) (h : p.done = true) : (c.inherit p).done = true := by
  unfold CtxState.inherit
  unfold CtxState.done at h
  split
  · exact cancel_done _ _
  · simp_all

theorem expire_keeps (c : CtxState) (n : Nat) (h : c.done = true) : c.expire n = c := by
  unfold CtxState.expire
  split
  · split
    · exact cancel_keeps _ _ h
    · rfl
  · rfl

@[simp]
theorem cancelGroup_serve (s : State) : s.cancelGroup.serve = s.serve := rfl
@[simp]
theorem cancelGroup_watcher (s : State) : s.cancelGroup.watcher = s.watcher := rfl
@[simp]
theorem cancelGroup_main (s : State) : s.cancelGroup.main = s.main := rfl
@[simp]
theorem cancelGroup_incoming (s : State) : s.cancelGroup.incoming = s.incoming := rfl
@[simp]
theorem cancelGroup_gErr (s : State) : s.cancelGroup.gErr = s.gErr := rfl
@[simp]
theorem cancelGroup_inShutdown (s : State) : s.cancelGroup.inShutdown = s.inShutdown := rfl
@[simp]
theorem cancelGroup_listener (s : State) : s.cancelGroup.listener = s.listener := rfl
@[simp]
theorem cancelGroup_tracked (s : State) : s.cancelGroup.tracked = s.tracked := rfl
@[simp]
theorem cancelGroup_active (s : State) : s.cancelGroup.active = s.active := rfl
@[simp]
theorem cancelGroup_log (s : State) : s.cancelGroup.log = s.log := rfl
@[simp]
theorem cancelGroup_finished (s : State) : s.cancelGroup.finished = s.finished := rfl
@[simp]
theorem cancelGroup_gctx (s : State) :
    s.cancelGroup.gctx = s.gctx.cancel GoError.Canceled := rfl
@[simp]
theorem cancelGroup_shutdownCtx (s : State) :
    s.cancelGroup.shutdownCtx =
      s.shutdownCtx.map (fun c => c.inherit (s.gctx.cancel GoError.Canceled)) := rfl

@[simp]
theorem groupDone_serve (s : State) (a : Activity) (r : Option GoError) :
    (s.groupDone a r).serve = s.serve := by
  unfold State.groupDone; split <;> rfl
@[simp]
theorem groupDone_watcher (s : State) (a : Activity) (r : Option GoError) :
    (s.groupDone a r).watcher = s.watcher := by
  unfold State.groupDone; split <;> rfl
@[simp]
theorem groupDone_main (s : State) (a : Activity) (r : Option GoError) :
    (s.groupDone a r).main = s.main := by
  unfold State.groupDone; split <;> rfl
@[simp]
theorem groupDone_incoming (s : State) (a : Activity) (r : Option GoError) :
    (s.groupDone a r).incoming = s.incoming := by
  unfold State.groupDone; split <;> rfl
@[simp]
theorem groupDone_inShutdown (s : State) (a : Activity) (r : Option GoError) :
    (s.groupDone a r).inShutdown = s.inShutdown := by
  unfold State.groupDone; split <;> rfl
@[simp]
theorem groupDone_listener (s : State) (a : Activity) (r : Option GoError) :
    (s.groupDone a r).listener = s.listener := by
  unfold State.groupDone; split <;> rfl
@[simp]
theorem groupDone_tracked (s : State) (a : Activity) (r : Option GoError) :
    (s.groupDone a r).tracked = s.tracked := by
  unfold State.groupDone; split <;> rfl
@[simp]
theorem groupDone_active (s : State) (a : Activity) (r : Option GoError) :
    (s.groupDone a r).active = s.active := by
  unfold State.groupDone; split <;> rfl
@[simp]
theorem groupDone_log (s : State) (a : Activity) (r : Option GoError) :
    (s.groupDone a r).log = s.log := by
  unfold State.groupDone; split <;> rfl
@[simp]
theorem groupDone_finished (s : State) (a : Activity) (r : Option GoError) :
    (s.groupDone a r).finished = s.finished ++ [(a, r)] := by
  unfold State.groupDone; split <;> rfl
@[simp]
theorem groupDone_gErr (s : State) (a : Activity) (r : Option GoError) :
    (s.groupDone a r).gErr = s.gErr.or r := by
  cases r <;> cases hg : s.gErr <;> simp [State.groupDone, hg, State.cancelGroup]

theorem groupDone_ctx (s : State) (a : Activity) (r : Option GoError) :
    ((s.groupDone a r).gctx = s.gctx ∧ (s.groupDone a r).shutdownCtx = s.shutdownCtx) ∨
    ((s.groupDone a r).gctx = s.gctx.cancel GoError.Canceled ∧
      (s.groupDone a r).shutdownCtx =
        s.shutdownCtx.map (fun c => c.inherit (s.gctx.cancel GoError.Canceled))) := by
  unfold State.groupDone; split
  · right; exact ⟨rfl, rfl⟩
  · left; exact ⟨rfl, rfl⟩

theorem withTimeout_done (p : CtxState) (now d : Nat) (h : p.done = true) :
    (withTimeout p now d).done = true := by
  unfold withTimeout withDeadline
  split
  · split
    · exact h
    · rw [expire_keeps _ _ (inherit_done _ _ h)]; exact inherit_done _ _ h
  · rw [expire_keeps _ _ (inherit_done _ _ h)]; exact inherit_done _ _ h

theorem groupDone_gctx_done (s : State) (a : Activity) (r : Option GoError)
    (h : s.gctx.done = true) : (s.groupDone a r).gctx.done = true := by
  rcases groupDone_ctx s a r with ⟨hg, _⟩ | ⟨hg, _⟩
  · rw [hg]; exact h
  · rw [hg]; exact cancel_done _ _

theorem groupDone_sctx_done (s : State) (a : Activity) (r : Option GoError)
    (h : ∀ c, s.shutdownCtx = some c → c.done = true) :
    ∀ c, (s.groupDone a r).shutdownCtx = some c → c.done = true := by
  intro c hc
  rcases groupDone_ctx s a r with ⟨_, hg⟩ | ⟨_, hg⟩
  · rw [hg] at hc; exact h c hc
  · rw [hg] at hc
    cases hsc : s.shutdownCtx with
    | none => simp [hsc] at hc
    | some c0 =>
      simp [hsc] at hc
      subst hc
      rw [inherit_keeps _ _ (h c0 hsc)]
      exact h c0 hsc

theorem groupDone_sctx_isSome (s : State) (a : Activity) (r : Option GoError) :
    (s.groupDone a r).shutdownCtx.isSome = s.shutdownCtx.isSome := by
  rcases groupDone_ctx s a r with ⟨_, hg⟩ | ⟨_, hg⟩ <;> rw [hg]
  simp

theorem init_ctxInv (cfg : Config) : CtxInv (init cfg) := by
  constructor <;> simp [init, withCancel, CtxState.done, WatcherPC.rank]

theorem step_ctxInv {s t : State} {ev : Event} (hs : CtxInv s) (h : step s ev = some t) :
    CtxInv t := by
  obtain ⟨h1, h2, h3, h4⟩ := hs
  cases ev
  case serveReturn =>
    simp only [step] at h
    split at h
    · cases h
      refine ⟨?_, ?_, ?_, ?_⟩
      · intro hi
        exact groupDone_gctx_done _ _ _ (h1 (by simpa using hi))
      · intro hw
        exact groupDone_gctx_done _ _ _ (h2 (by simpa using hw))
      · exact groupDone_sctx_done _ _ _ h3
      · intro hw
        rw [groupDone_sctx_isSome]
        exact h4 (by simpa using hw)
    · cases h
  case watcherReturn =>
    simp only [step] at h
    split at h
    · rename_i r hr
      cases h
      have hw6 : s.watcher.rank = 5 := by rw [hr]; rfl
      refine ⟨?_, ?_, ?_, ?_⟩
      · intro hi
        exact groupDone_gctx_done _ _ _ (h1 (by simpa using hi))
      · intro _
        exact groupDone_gctx_done _ _ _ (h2 (by omega))
      · apply groupDone_sctx_done
        intro c hc
        cases hsc : s.shutdownCtx with
        | none => simp [hsc] at hc
        | some c0 =>
          simp [hsc] at hc
          subst hc
          exact cancel_done _ _
      · intro _
        rw [groupDone_sctx_isSome]
        simpa using h4 (by omega)
    · cases h
  all_goals simp only [step] at h
  all_goals (repeat' split at h)
  all_goals (first | cases h | skip)
  all_goals (constructor <;> try assumption)
  all_goals dsimp only
  all_goals try (simp_all [WatcherPC.rank, inherit_keeps, expire_keeps, inherit_done, cancel_done, cancel_keeps, withTimeout_done]; done)
theorem init_joinInv (cfg : Config) : JoinInv (init cfg) := by
  constructor; simp [init, MainPC.rank]

theorem step_joinInv {s t : State} {ev : Event} (hs : JoinInv s) (h : step s ev = some t) :
    JoinInv t := by
  obtain ⟨h1⟩ := hs
  cases ev
  all_goals simp only [step] at h
  all_goals (repeat' split at h)
  all_goals (first | cases h | skip)
  all_goals (constructor <;> try assumption)
  all_goals dsimp only
  all_goals try (simp_all [ServePC.rank, WatcherPC.rank, MainPC.rank]; done)

theorem init_netInv (cfg : Config) : NetInv (init cfg) := by
  constructor <;> simp [init, ServePC.rank, WatcherPC.rank]

set_option maxHeartbeats 2000000 in
theorem step_netInv {s t : State} {ev : Event} (hs : NetInv s) (h : step s ev = some t) :
    NetInv t := by
  obtain ⟨h1, h2, h3, h4, h5⟩ := hs
  cases ev
  case watcherShutdown =>
    simp only [step] at h
    split at h
    · rename_i hw
      cases h
      have hns : s.inShutdown = false := by
        cases hb : s.inShutdown
        · rfl
        · have h4w := h1.mp hb
          rw [hw] at h4w
          simp [WatcherPC.rank] at h4w
      refine ⟨?_, ?_, ?_, ?_, ?_⟩
      · simp [WatcherPC.rank]
      · intro hr
        have := h2 hr
        simp [this]
      · intro hr
        have := h3 hr
        simp [this]
      · intro hr
        have := h4 hr
        simp [this, hns]
      · intro hr
        have := h5 hr
        simp [this]
    · cases h
  all_goals simp only [step] at h
  all_goals (repeat' split at h)
  all_goals (first | cases h | skip)
  all_goals constructor
  all_goals dsimp only
  all_goals try assumption
  all_goals try (simp_all [ServePC.rank, WatcherPC.rank, MainPC.rank]; done)
theorem errorEntries_append (l m : List Record) :
    errorEntries (l ++ m) = errorEntries l ++ errorEntries m := by
  simp [errorEntries]

theorem errorEntries_start (p : String) : errorEntries (startRecords p) = [] := by
  simp [errorEntries, startRecords, logCall, written, handed, WithCtx, Logger.Info,
    SlogLogger.logContext, List.filter]

theorem errorEntries_shutdown : errorEntries shutdownRecords = [] := by
  simp [errorEntries, shutdownRecords, logCall, written, handed, WithCtx, Logger.Info,
    SlogLogger.logContext, List.filter]

theorem errorEntries_error (e : GoError) : errorEntries (errorRecords e) = errorRecords e := by
  simp [errorEntries, errorRecords, logCall, written, handed, WithCtx, Logger.Error,
    SlogLogger.logContext, List.filter, SlogLogger.enabled, defaultLogger, Level.toInt]

theorem init_logInv (cfg : Config) : LogInv (init cfg) := by
  constructor <;> simp [init, WatcherPC.rank, errorEntries, expectedErrors]

set_option maxHeartbeats 2000000 in
theorem step_logInv {s t : State} {ev : Event} (hs : LogInv s) (h : step s ev = some t) :
    LogInv t := by
  obtain ⟨h1, h2⟩ := hs
  cases ev
  all_goals simp only [step] at h
  all_goals (repeat' split at h)
  all_goals (first | cases h | skip)
  all_goals constructor
  all_goals dsimp only
  all_goals try assumption
  all_goals try (simp_all [WatcherPC.rank, expectedErrors, errorEntries_append, errorEntries_start, errorEntries_shutdown, errorEntries_error]; done)
theorem finRel_serve (a b : ServePC) (w : WatcherPC) (f : List (Activity × Option GoError))
    (ha : a.rank < 5) (hb : b.rank < 5) (h : finRel a w f) : finRel b w f := by
  cases a <;> cases b <;> cases w <;> simp_all [finRel, ServePC.rank]

theorem finRel_watcher (sv : ServePC) (a b : WatcherPC) (f : List (Activity × Option GoError))
    (ha : a.rank < 6) (hb : b.rank < 6) (h : finRel sv a f) : finRel sv b f := by
  cases a <;> cases b <;> cases sv <;> simp_all [finRel, WatcherPC.rank]

theorem finRel_serve_done (r : GoError) (w : WatcherPC) (f : List (Activity × Option GoError))
    (h : finRel (ServePC.returning r) w f) :
    finRel (ServePC.done r) w (f ++ [(Activity.serve, some r)]) := by
  cases w <;> simp_all [finRel]

theorem finRel_watcher_done (sv : ServePC) (r : Option GoError)
    (f : List (Activity × Option GoError)) (h : finRel sv (WatcherPC.returning r) f) :
    finRel sv (WatcherPC.done r) (f ++ [(Activity.watcher, r)]) := by
  cases sv <;> simp_all [finRel]

theorem init_groupInv (cfg : Config) : GroupInv (init cfg) := by
  constructor <;> simp [init, finOK, finRel]

theorem main_waiting_of_rank {m : MainPC} (h : ¬ 1 ≤ m.rank) : m = MainPC.waiting := by
  cases m <;> simp [MainPC.rank] at h ⊢

set_option maxHeartbeats 2000000 in
theorem step_groupInv {s t : State} {ev : Event} (hj : JoinInv s) (hs : GroupInv s)
    (h : step s ev = some t) : GroupInv t := by
  obtain ⟨h1, h2, h3, h4⟩ := hs
  obtain ⟨hj⟩ := hj
  unfold finOK at h2
  cases ev
  case serveReturn =>
    simp only [step] at h
    split at h
    · rename_i r hr
      cases h
      have hm : s.main = MainPC.waiting := by
        apply main_waiting_of_rank
        intro hc
        have := (hj hc).1
        rw [hr] at this
        simp [ServePC.rank] at this
      refine ⟨?_, ?_, ?_, ?_⟩
      · simp [h1, List.findSome?_append]
      · unfold finOK
        simp only [groupDone_serve, groupDone_watcher, groupDone_finished]
        rw [hr] at h2
        exact finRel_serve_done _ _ _ h2
      · intro e he
        simp [hm] at he
      · intro e he
        simp [hm] at he
    · cases h
  case watcherReturn =>
    simp only [step] at h
    split at h
    · rename_i r hr
      cases h
      have hm : s.main = MainPC.waiting := by
        apply main_waiting_of_rank
        intro hc
        have := (hj hc).2
        rw [hr] at this
        simp [WatcherPC.rank] at this
      refine ⟨?_, ?_, ?_, ?_⟩
      · cases r <;> simp [h1, List.findSome?_append, List.findSome?]
      · unfold finOK
        simp only [groupDone_serve, groupDone_watcher, groupDone_finished]
        rw [hr] at h2
        exact finRel_watcher_done _ _ _ h2
      · intro e he
        simp [hm] at he
      · intro e he
        simp [hm] at he
    · cases h
  all_goals simp only [step] at h
  all_goals (repeat' split at h)
  all_goals (first | cases h | skip)
  all_goals constructor
  all_goals try unfold finOK
  all_goals try dsimp only
  all_goals try assumption
  all_goals try (simp_all [ServePC.rank, WatcherPC.rank, MainPC.rank]; done)
  all_goals try (apply finRel_serve _ _ _ _ _ _ h2 <;> simp [*, ServePC.rank] <;> done)
  all_goals try (apply finRel_watcher _ _ _ _ _ _ h2 <;> simp [*, WatcherPC.rank] <;> done)

/-! ## Every state of every run satisfies the invariants -/

theorem init_inv (cfg : Config) : Inv (init cfg) :=
  ⟨init_ctxInv cfg, init_joinInv cfg, init_netInv cfg, init_logInv cfg, init_groupInv cfg⟩

theorem step_inv {s t : State} {ev : Event} (hs : Inv s) (h : step s ev = some t) : Inv t :=
  ⟨step_ctxInv hs.ctx h, step_joinInv hs.join h, step_netInv hs.net h, step_logInv hs.log h,
    step_groupInv hs.join hs.group h⟩

theorem run_cons {s t : State} {ev : Event} {evs : List Event}
    (h : run s (ev :: evs) = some t) : ∃ u, step s ev = some u ∧ run u evs = some t := by
  simp only [run] at h
  cases hu : step s ev with
  | none => simp [hu] at h
  | some u => exact ⟨u, rfl, by simpa [hu] using h⟩

theorem run_append {s t u : State} {xs ys : List Event}
    (h1 : run s xs = some t) (h2 : run t ys = some u) : run s (xs ++ ys) = some u := by
  induction xs generalizing s with
  | nil => simp only [run, Option.some.injEq] at h1; subst h1; simpa using h2
  | cons x xs ih =>
    obtain ⟨v, hv, hr⟩ := run_cons h1
    simp only [List.cons_append, run, hv, Option.some_bind]
    exact ih hr

theorem run_inv {s t : State} {evs : List Event} (hs : Inv s) (h : run s evs = some t) :
    Inv t := by
  induction evs generalizing s with
  | nil => simp only [run, Option.some.injEq] at h; subst h; exact hs
  | cons x xs ih =>
    obtain ⟨v, hv, hr⟩ := run_cons h
    exact ih (step_inv hs hv) hr

theorem reach_inv {cfg : Config} {evs : List Event} {s : State}
    (h : run (init cfg) evs = some s) : Inv s :=
  run_inv (init_inv cfg) h
theorem finishMain_spec {s : State} (hs : Inv s) {a : GoError} {w : Option GoError}
    (hsv : s.serve = ServePC.done a) (hw : s.watcher = WatcherPC.done w) :
    ∃ t, finishMain s = some t ∧ t.main = MainPC.returned (aggregate s.gErr) := by
  cases hm : s.main with
  | waiting =>
    cases hg : aggregate s.gErr with
    | none =>
      refine ⟨{ s.cancelGroup with main := MainPC.returned none }, ?_, rfl⟩
      simp [finishMain, hm, step, hsv, hw, hg]
    | some e =>
      refine ⟨{ s.cancelGroup with main := MainPC.returned (some e),
                                   log := s.log ++ errorRecords e }, ?_, rfl⟩
      simp [finishMain, hm, step, hsv, hw, hg]
  | failing e =>
    refine ⟨{ s with main := MainPC.returned (some e), log := s.log ++ errorRecords e }, ?_, ?_⟩
    · simp [finishMain, hm, step]
    · simp [hs.group.failing e hm]
  | returned r =>
    refine ⟨s, ?_, ?_⟩
    · simp [finishMain, hm]
    · rw [hm, hs.group.result r hm]

theorem finishMain_returned {s : State} {r : Option GoError} (hm : s.main = MainPC.returned r) :
    finishMain s = some s := by
  simp [finishMain, hm]

theorem gErr_serve_first {s : State} (hs : Inv s) {a : GoError}
    (hf : s.finished.head? = some (Activity.serve, some a)) : s.gErr = some a := by
  rw [hs.group.first]
  cases hl : s.finished with
  | nil => simp [hl] at hf
  | cons x xs =>
    simp [hl] at hf
    subst hf
    simp [List.findSome?]

theorem gErr_watcher_nil {s : State} (hs : Inv s) {a : GoError}
    (hsv : s.serve = ServePC.done a) (hw : s.watcher = WatcherPC.done none) :
    s.gErr = some a := by
  have hf := hs.group.fin
  unfold finOK at hf
  rw [hsv, hw] at hf
  rw [hs.group.first]
  simp only [finRel] at hf
  rcases hf with hf | hf <;> rw [hf] <;> simp [List.findSome?]
theorem init_bindInv (cfg : Config) : BindInv (init cfg) := by
  constructor <;> simp [init]

set_option maxHeartbeats 2000000 in
theorem step_bindInv {s t : State} {ev : Event} (hs : BindInv s) (h : step s ev = some t) :
    BindInv t := by
  obtain ⟨h1, h2⟩ := hs
  cases ev
  all_goals simp only [step] at h
  all_goals (repeat' split at h)
  all_goals (first | cases h | skip)
  all_goals constructor
  all_goals try dsimp only
  all_goals try assumption
  all_goals try (simp only [groupDone_listener, groupDone_watcher, groupDone_active]; assumption)
  all_goals try (simp_all; done)

theorem run_bindInv {s t : State} {evs : List Event} (hs : BindInv s)
    (h : run s evs = some t) : BindInv t := by
  induction evs generalizing s with
  | nil => simp only [run, Option.some.injEq] at h; subst h; exact hs
  | cons x xs ih =>
    obtain ⟨v, hv, hr⟩ := run_cons h
    exact ih (step_bindInv hs hv) hr
theorem step_inShutdown {s t : State} {ev : Event} (hs : s.inShutdown = true)
    (h : step s ev = some t) : t.inShutdown = true := by
  cases ev
  all_goals simp only [step] at h
  all_goals (repeat' split at h)
  all_goals (first | cases h | skip)
  all_goals try dsimp only
  all_goals try assumption
  all_goals try (simp only [groupDone_inShutdown, cancelGroup_inShutdown]; assumption)

theorem step_active {s t : State} {ev : Event} (hn : NetInv s) (hs : s.inShutdown = true)
    (hev : ev ≠ Event.connDone) (h : step s ev = some t) : t.active = s.active := by
  cases ev
  case connDone => exact absurd rfl hev
  case accept =>
    simp only [step] at h
    split at h
    · rename_i hsv hl
      have := (hn.acc (by rw [hsv]; rfl)).2
      rw [hs] at this
      simp [hl] at this
    · cases h
  all_goals simp only [step] at h
  all_goals (repeat' split at h)
  all_goals (first | cases h | skip)
  all_goals try dsimp only
  all_goals try rfl
  all_goals try (simp only [groupDone_active, cancelGroup_active]; done)

theorem run_active {s t : State} {evs : List Event} (hi : Inv s) (hs : s.inShutdown = true)
    (hev : ∀ ev ∈ evs, ev ≠ Event.connDone) (h : run s evs = some t) :
    t.active = s.active := by
  induction evs generalizing s with
  | nil => simp only [run, Option.some.injEq] at h; subst h; rfl
  | cons x xs ih =>
    obtain ⟨v, hv, hr⟩ := run_cons h
    have h1 := step_active hi.net hs (hev x (List.mem_cons_self _ _)) hv
    have h2 := ih (step_inv hi hv) (step_inShutdown hs hv)
      (fun ev hm => hev ev (List.mem_cons_of_mem _ hm)) hr
    rw [h2, h1]

theorem poll_gives_up {s t : State} {e : GoError} (h : step s Event.watcherPoll = some t)
    (he : t.watcher = WatcherPC.returning (some e)) :
    0 < s.active ∧ t.active = s.active ∧ s.watcher = WatcherPC.polling ∧
      ∃ c, s.shutdownCtx = some c ∧ c.done = true ∧ c.err = some e := by
  simp only [step] at h
  split at h
  · rename_i c hw hc
    split at h
    · cases h
    · split at h
      · cases h
        simp at he
      · split at h
        · cases h
          simp at he
          exact ⟨by omega, rfl, hw, c, hc, by assumption, he⟩
        · cases h
          rw [hw] at he
          cases he
  · cases h

/-- When a round of `server.Shutdown` gives up with the error `e` of its
context, at least one connection is open, and no later action of the run
closes one: in every continuation in which no connection finishes on its
own the number of open connections is the same, also when `InitServer` has
returned; the listener is then not open. -/
theorem connections_stay_open (cfg : Config) (pre post : List Event) (s0 s t : State)
    (e : GoError)
    (h0 : run (init cfg) pre = some s0)
    (hp : step s0 Event.watcherPoll = some s)
    (he : s.watcher = WatcherPC.returning (some e))
    (hq : ∀ ev ∈ post, ev ≠ Event.connDone)
    (ht : run s post = some t) :
    0 < s.active ∧ t.active = s.active ∧
    (∀ r, t.main = MainPC.returned r → t.listener ≠ Listener.open ∧ 0 < t.active) := by
  have hi0 := reach_inv h0
  have hi := step_inv hi0 hp
  have hit := run_inv hi ht
  have hsd : s.inShutdown = true := hi.net.flag.mpr (by rw [he]; simp [WatcherPC.rank])
  have hpg := poll_gives_up hp he
  have hpos : 0 < s.active := by rw [hpg.2.1]; exact hpg.1
  have hact := run_active hi hsd hq ht
  refine ⟨hpos, hact, ?_⟩
  intro r hr
  have hj := hit.join.join (by rw [hr]; simp [MainPC.rank])
  exact ⟨(hit.net.exited (by omega)).1, by omega⟩
theorem init_quietInv (cfg : Config) : QuietInv (init cfg) := by
  constructor <;> simp [init]

set_option maxHeartbeats 2000000 in
theorem step_quietInv {s t : State} {ev : Event} (hn : NetInv s) (hs : QuietInv s)
    (hq : ev.quiet = true) (h : step s ev = some t) : QuietInv t := by
  obtain ⟨h1, h2, h3⟩ := hs
  have hacc := hn.acc
  cases ev
  case accept => simp [Event.quiet] at hq
  case serveAcceptFail => simp [Event.quiet] at hq
  case serveListen b =>
    cases b with
    | some e => simp [Event.quiet] at hq
    | none =>
      simp only [step] at h
      (repeat' split at h)
      all_goals (first | cases h | skip)
      all_goals constructor
      all_goals try dsimp only
      all_goals try assumption
      all_goals try (simp_all; done)
  all_goals simp only [step] at h
  all_goals (repeat' split at h)
  all_goals (first | cases h | skip)
  all_goals constructor
  all_goals try dsimp only
  all_goals try assumption
  all_goals try (simp only [groupDone_serve, groupDone_watcher, groupDone_active]; assumption)
  all_goals try (simp only [groupDone_serve, groupDone_watcher, groupDone_active]; simp_all; done)
  all_goals try (simp_all [ServePC.rank]; done)

theorem run_quietInv {s t : State} {evs : List Event} (hi : Inv s) (hs : QuietInv s)
    (hq : ∀ ev ∈ evs, ev.quiet = true) (h : run s evs = some t) : QuietInv t := by
  induction evs generalizing s with
  | nil => simp only [run, Option.some.injEq] at h; subst h; exact hs
  | cons x xs ih =>
    obtain ⟨v, hv, hr⟩ := run_cons h
    exact ih (step_inv hi hv) (step_quietInv hi.net hs (hq x (List.mem_cons_self _ _)) hv)
      (fun ev hm => hq ev (List.mem_cons_of_mem _ hm)) hr

theorem step_incoming_done {s t : State} {ev : Event} (hs : s.incoming.done = true)
    (h : step s ev = some t) : t.incoming.done = true := by
  cases ev
  all_goals simp only [step] at h
  all_goals (repeat' split at h)
  all_goals (first | cases h | skip)
  all_goals try dsimp only
  all_goals try assumption
  all_goals try (simp only [groupDone_incoming, cancelGroup_incoming]; assumption)
  all_goals try (simp [expire_keeps, cancel_keeps, hs]; done)

theorem quiet_result {s : State} (hi : Inv s) (hq : QuietInv s) {r : Option GoError}
    (hm : s.main = MainPC.returned r) :
    r = none ∧ s.serve = ServePC.done GoError.ErrServerClosed ∧
      s.watcher = WatcherPC.done none := by
  have hj := hi.join.join (by rw [hm]; simp [MainPC.rank])
  have hsv : s.serve = ServePC.done GoError.ErrServerClosed := by
    cases hs : s.serve <;> rw [hs] at hj <;> simp [ServePC.rank] at hj
    rename_i a
    rw [hq.serve a (Or.inr hs)]
  have hw : s.watcher = WatcherPC.done none := by
    cases hs : s.watcher <;> rw [hs] at hj <;> simp [WatcherPC.rank] at hj
    rename_i a
    rw [hq.watcher a (Or.inr hs)]
  refine ⟨?_, hsv, hw⟩
  rw [hi.group.result r hm, gErr_watcher_nil hi hsv hw]
  rfl
theorem quiet_progress {s : State} (hi : Inv s) (hq : QuietInv s)
    (hc : s.incoming.done = true) (hm : s.main.rank < 2) :
    ∃ ev, nextEvent s = some ev ∧ ev.quiet = true ∧ ev.internal = true ∧
      (step s ev).isSome = true := by
  have hg := hi.ctx.gctx_inc hc
  cases hw : s.watcher with
  | waiting =>
    exact ⟨Event.watcherWake, by simp [nextEvent, watcherNext, hw, hg], rfl, rfl,
      by simp [step, hw, hg]⟩
  | woke =>
    exact ⟨Event.watcherLog, by simp [nextEvent, watcherNext, hw], rfl, rfl,
      by simp [step, hw]⟩
  | logged =>
    exact ⟨Event.watcherDerive, by simp [nextEvent, watcherNext, hw], rfl, rfl,
      by simp [step, hw]⟩
  | derived =>
    exact ⟨Event.watcherShutdown, by simp [nextEvent, watcherNext, hw], rfl, rfl,
      by simp [step, hw]⟩
  | polling =>
    have hsome := hi.ctx.sctx_some (by rw [hw]; simp [WatcherPC.rank])
    cases hsc : s.shutdownCtx with
    | none => simp [hsc] at hsome
    | some c =>
      cases htr : s.tracked with
      | false =>
        exact ⟨Event.watcherPoll, by simp [nextEvent, watcherNext, hw, htr], rfl, rfl,
          by simp [step, hw, hsc, hq.idle, htr]⟩
      | true =>
        have hsd : s.inShutdown = true := hi.net.flag.mpr (by rw [hw]; simp [WatcherPC.rank])
        have hsv : s.serve = ServePC.accepting := by
          cases hs : s.serve with
          | start => have := (hi.net.unbound (by rw [hs]; simp [ServePC.rank])).2; simp [htr] at this
          | logged => have := (hi.net.unbound (by rw [hs]; simp [ServePC.rank])).2; simp [htr] at this
          | bound => have := (hi.net.bound (by rw [hs]; rfl)).2; simp [htr] at this
          | accepting => rfl
          | returning r => have := (hi.net.exited (by rw [hs]; simp [ServePC.rank])).2; simp [htr] at this
          | done r => have := (hi.net.exited (by rw [hs]; simp [ServePC.rank])).2; simp [htr] at this
        have hl : s.listener = Listener.closed := by
          have := (hi.net.acc (by rw [hsv]; rfl)).2
          simpa [hsd] using this
        exact ⟨Event.serveAcceptClosed,
          by simp [nextEvent, watcherNext, serveNext, hw, hsv, hl, htr], rfl, rfl,
          by simp [step, hsv, hl]⟩
  | returning r =>
    exact ⟨Event.watcherReturn, by simp [nextEvent, watcherNext, hw], rfl, rfl,
      by simp [step, hw]⟩
  | done w =>
    cases hsv : s.serve with
    | start =>
      exact ⟨Event.serveLog, by simp [nextEvent, watcherNext, serveNext, hw, hsv], rfl, rfl,
        by simp [step, hsv]⟩
    | logged =>
      have hsd : s.inShutdown = true := hi.net.flag.mpr (by rw [hw]; simp [WatcherPC.rank])
      exact ⟨Event.serveListen none,
        by simp [nextEvent, watcherNext, serveNext, hw, hsv], rfl, rfl,
        by simp [step, hsv, hsd]⟩
    | bound =>
      have hsd : s.inShutdown = true := hi.net.flag.mpr (by rw [hw]; simp [WatcherPC.rank])
      exact ⟨Event.serveTrack,
        by simp [nextEvent, watcherNext, serveNext, hw, hsv], rfl, rfl,
        by simp [step, hsv, hsd]⟩
    | accepting =>
      have hsd : s.inShutdown = true := hi.net.flag.mpr (by rw [hw]; simp [WatcherPC.rank])
      have hl : s.listener = Listener.closed := by
        have := (hi.net.acc (by rw [hsv]; rfl)).2
        simpa [hsd] using this
      exact ⟨Event.serveAcceptClosed,
        by simp [nextEvent, watcherNext, serveNext, hw, hsv, hl], rfl, rfl,
        by simp [step, hsv, hl]⟩
    | returning r =>
      exact ⟨Event.serveReturn,
        by simp [nextEvent, watcherNext, serveNext, hw, hsv], rfl, rfl,
        by simp [step, hsv]⟩
    | done a =>
      cases hmm : s.main with
      | waiting =>
        cases hagg : aggregate s.gErr with
        | none =>
          exact ⟨Event.mainWait,
            by simp [nextEvent, watcherNext, serveNext, mainNext, hw, hsv, hmm], rfl, rfl,
            by simp [step, hw, hsv, hmm, hagg]⟩
        | some e =>
          exact ⟨Event.mainWait,
            by simp [nextEvent, watcherNext, serveNext, mainNext, hw, hsv, hmm], rfl, rfl,
            by simp [step, hw, hsv, hmm, hagg]⟩
      | failing e =>
        exact ⟨Event.mainLogError,
          by simp [nextEvent, watcherNext, serveNext, mainNext, hw, hsv, hmm], rfl, rfl,
          by simp [step, hmm]⟩
      | returned r =>
        rw [hmm] at hm
        simp [MainPC.rank] at hm

set_option maxHeartbeats 2000000 in
theorem quiet_decrease {s t : State} {ev : Event} (hq : QuietInv s)
    (hint : ev.internal = true) (hqu : ev.quiet = true) (h : step s ev = some t) :
    remaining t < remaining s := by
  have h1 := hq.idle
  cases ev
  case accept => simp [Event.quiet] at hqu
  case tick => simp [Event.internal] at hint
  case cancelIncoming => simp [Event.internal] at hint
  case connDone => simp [Event.internal] at hint
  all_goals simp only [step] at h
  all_goals (repeat' split at h)
  all_goals (first | cases h | skip)
  all_goals try (simp only [remaining, groupDone_serve, groupDone_watcher, groupDone_main, cancelGroup_serve, cancelGroup_watcher, cancelGroup_main])
  all_goals try (simp_all [ServePC.rank, WatcherPC.rank, MainPC.rank]; done)
  all_goals try (simp_all [ServePC.rank, WatcherPC.rank, MainPC.rank]; omega)

/-- C1 (the code loses the error). With one request in flight at
cancellation, `Shutdown` gives up with `context.Canceled`; when the serve
goroutine returns `http.ErrServerClosed` into the group first, `InitServer`
returns nil, and only when the watcher returns first does it return the
watcher's error. -/
theorem C1_shutdown_error_lost :
    InitServer cfgLive schedServeFirst = some none ∧
    InitServer cfgLive schedWatcherFirst = some (some GoError.Canceled) ∧
    (run (init cfgLive) schedServeFirst).map
        (fun s => (s.serve, s.watcher, s.finished.map Prod.fst, s.main)) =
      some (ServePC.done GoError.ErrServerClosed, WatcherPC.done (some GoError.Canceled),
        [Activity.serve, Activity.watcher], MainPC.returned none) ∧
    (run (init cfgLive) schedWatcherFirst).map
        (fun s => (s.serve, s.watcher, s.finished.map Prod.fst, s.main)) =
      some (ServePC.done GoError.ErrServerClosed, WatcherPC.done (some GoError.Canceled),
        [Activity.watcher, Activity.serve], MainPC.returned (some GoError.Canceled)) := by
  refine ⟨by decide, by decide, by decide, by decide⟩

/-- C2 as stated fails: the serve goroutine ends with a fatal accept error,
the watcher ends before it with `context.Canceled`, and `InitServer` returns
`context.Canceled`, not the serve error. -/
theorem C2_counterexample :
    InitServer cfgLive schedFatalRace = some (some GoError.Canceled) ∧
    run (init cfgLive) schedFatalRace = some (endState cfgLive schedFatalRace) ∧
    (endState cfgLive schedFatalRace).serve = ServePC.done acceptError ∧
    errorsIs acceptError GoError.ErrServerClosed = false ∧
    (endState cfgLive schedFatalRace).watcher = WatcherPC.done (some GoError.Canceled) ∧
    (endState cfgLive schedFatalRace).main = MainPC.returned (some GoError.Canceled) ∧
    some GoError.Canceled ≠ some acceptError := by
  refine ⟨by decide, by decide, by decide, by decide, by decide, by decide, by decide⟩

/-- C2 (amended). When the serve goroutine has ended with an error `e` for
which `errors.Is(e, http.ErrServerClosed)` is false and the watcher has ended
with `w`, and either `w` is nil or the serve goroutine finished first, then
the calling goroutine leaves `g.Wait()` and `InitServer` returns exactly `e`. -/
theorem C2_serve_error_first (cfg : Config) (evs : List Event) (s : State)
    (e : GoError) (w : Option GoError)
    (h : run (init cfg) evs = some s)
    (hsv : s.serve = ServePC.done e) (hw : s.watcher = WatcherPC.done w)
    (hfatal : errorsIs e GoError.ErrServerClosed = false)
    (hfirst : w = none ∨ s.finished.head? = some (Activity.serve, some e)) :
    (∃ t, finishMain s = some t ∧ t.main = MainPC.returned (some e)) ∧
    ∀ r, s.main = MainPC.returned r → r = some e := by
  have hs := reach_inv h
  have hg : s.gErr = some e := by
    rcases hfirst with hn | hf
    · subst hn
      exact gErr_watcher_nil hs hsv hw
    · exact gErr_serve_first hs hf
  have hagg : aggregate s.gErr = some e := by
    rw [hg]
    simp [aggregate, hfatal]
  obtain ⟨t, ht, hm⟩ := finishMain_spec hs hsv hw
  refine ⟨⟨t, ht, by rw [hm, hagg]⟩, ?_⟩
  intro r hr
  rw [hs.group.result r hr, hagg]

/-- Witness of C2 (amended): a bind failure, after which the watcher ends
with nil. -/
theorem C2_serve_error_first_witness :
    run (init cfgLive) schedBindFail = some (endState cfgLive schedBindFail) ∧
    (endState cfgLive schedBindFail).serve = ServePC.done bindError ∧
    (endState cfgLive schedBindFail).watcher = WatcherPC.done none ∧
    errorsIs bindError GoError.ErrServerClosed = false ∧
    ((∃ t, finishMain (endState cfgLive schedBindFail) = some t ∧
        t.main = MainPC.returned (some bindError)) ∧
      ∀ r, (endState cfgLive schedBindFail).main = MainPC.returned r → r = some bindError) :=
  ⟨by decide, by decide, by decide, by decide,
    C2_serve_error_first cfgLive schedBindFail (endState cfgLive schedBindFail) bindError none
      (by decide) (by decide) (by decide) (by decide) (Or.inl rfl)⟩

/-- In every state of every run the shutdown context, once derived, is done. -/
theorem shutdownCtx_always_done (cfg : Config) (evs : List Event) (s : State) (c : CtxState)
    (h : run (init cfg) evs = some s) (hc : s.shutdownCtx = some c) : c.done = true :=
  (reach_inv h).ctx.sctx_done c hc

/-- C3 (the code derives a context that is already done). The caller
cancels at time 0 with one request in flight. When the watcher is about to
call `server.Shutdown`, at time 0, the context it passes has deadline 10 and
is already done with `context.Canceled`; once the serve goroutine has left
`Accept`, the first round of `Shutdown` therefore gives up on the open
connection, still at time 0. -/
theorem C3_shutdownCtx_born_done :
    (run (init cfgLive) schedToShutdown).map
        (fun s => (s.watcher, s.now, s.active, s.shutdownCtx)) =
      some (WatcherPC.derived, 0, 1,
        some { deadline := some 10, err := some GoError.Canceled }) ∧
    (run (init cfgLive)
        (schedToShutdown ++
          [Event.watcherShutdown, Event.serveAcceptClosed, Event.watcherPoll])).map
        (fun s => (s.watcher, s.now, s.active)) =
      some (WatcherPC.returning (some GoError.Canceled), 0, 1) := by
  constructor <;> decide

/-! ## The claims -/

/-- C10. `WithCtx(ctx)` is a non-nil `Logger` on the default logger bound to
`ctx`; `l.With(kv...)` is a new non-nil `Logger` on the context of `l` whose
slog logger carries the attributes of `l` followed by `kv` (the receiver is
a value and is not modified); and `WithCtx(ctx).With(kv...).Info(msg, args...)`
hands over exactly one record, at level Info, with message `msg`, context
`ctx` and fields `kv` followed by `args`; likewise `Error`, `Warn` and `Debug`
at their own levels. (What the handler then writes depends on its level:
at `slog.LevelInfo` the Debug record is handed over but not written.) -/
theorem C10_logger_contract (ctx : Context) (kv args : List Value) (msg : String) :
    WithCtx ctx ≠ none ∧
    WithCtx ctx = some { logger := defaultLogger, ctx := ctx } ∧
    (∀ l : Logger, ∃ m, l.With kv = some m ∧ m.ctx = l.ctx ∧
      m.logger.attrs = l.logger.attrs ++ kv ∧ m.logger.minLevel = l.logger.minLevel) ∧
    handed ((WithCtx ctx).bind (fun l => l.With kv)) (fun l => l.Info msg args) =
      [{ level := Level.info, ctx := ctx, msg := msg, fields := kv ++ args }] ∧
    handed ((WithCtx ctx).bind (fun l => l.With kv)) (fun l => l.Error msg args) =
      [{ level := Level.error, ctx := ctx, msg := msg, fields := kv ++ args }] ∧
    handed ((WithCtx ctx).bind (fun l => l.With kv)) (fun l => l.Warn msg args) =
      [{ level := Level.warn, ctx := ctx, msg := msg, fields := kv ++ args }] ∧
    handed ((WithCtx ctx).bind (fun l => l.With kv)) (fun l => l.Debug msg args) =
      [{ level := Level.debug, ctx := ctx, msg := msg, fields := kv ++ args }] ∧
    logCall ((WithCtx ctx).bind (fun l => l.With kv)) (fun l => l.Debug msg args) = [] := by
  have hw : ∀ l : SlogLogger, (l.With kv).attrs = l.attrs ++ kv ∧
      (l.With kv).minLevel = l.minLevel := by
    intro l
    unfold SlogLogger.With
    split
    · rename_i h
      have : kv = [] := by simpa using h
      simp [this]
    · simp
  refine ⟨by simp [WithCtx], rfl, ?_, ?_, ?_, ?_, ?_, ?_⟩
  · intro l
    exact ⟨_, rfl, rfl, (hw l.logger).1, (hw l.logger).2⟩
  all_goals
    have hd := (hw defaultLogger).1
    have hm := (hw defaultLogger).2
    simp only [defaultLogger, List.nil_append] at hd hm
    simp [WithCtx, Logger.With, handed, Logger.Info, Logger.Error, Logger.Warn, Logger.Debug,
      SlogLogger.logContext, defaultLogger, hd, logCall, written, SlogLogger.enabled, hm,
      Level.toInt]

/-- C4. In every run in which the serve goroutine has ended with
`http.ErrServerClosed` and the watcher with nil, the calling goroutine
leaves `g.Wait()` and `InitServer` returns nil; and in no run does
`InitServer` return an error `e` with `errors.Is(e, http.ErrServerClosed)`. -/
theorem C4_closed_is_success (cfg : Config) (evs : List Event) (s : State)
    (h : run (init cfg) evs = some s) :
    (s.serve = ServePC.done GoError.ErrServerClosed → s.watcher = WatcherPC.done none →
      (∃ t, finishMain s = some t ∧ t.main = MainPC.returned none) ∧
      ∀ r, s.main = MainPC.returned r → r = none) ∧
    (∀ e, s.main = MainPC.returned (some e) → errorsIs e GoError.ErrServerClosed = false) := by
  have hs := reach_inv h
  constructor
  · intro hsv hw
    have hg := gErr_watcher_nil hs hsv hw
    have hagg : aggregate s.gErr = none := by rw [hg]; rfl
    obtain ⟨t, ht, hm⟩ := finishMain_spec hs hsv hw
    refine ⟨⟨t, ht, by rw [hm, hagg]⟩, ?_⟩
    intro r hr
    rw [hs.group.result r hr, hagg]
  · intro e he
    have := hs.group.result _ he
    unfold aggregate at this
    split at this
    · split at this
      · rename_i h1
        simp at this
        subst this
        simpa using h1
      · simp at this
    · simp at this

/-- Witness of C4: in the orderly shutdown `schedClean` the serve goroutine
has ended with `http.ErrServerClosed`, the watcher with nil, and `InitServer`
has returned nil; in the bind failure `schedBindFail` it has returned the
bind error, which is not `http.ErrServerClosed`. -/
theorem C4_closed_is_success_witness :
    (run (init cfgLive) schedClean = some (endState cfgLive schedClean) ∧
      (endState cfgLive schedClean).serve = ServePC.done GoError.ErrServerClosed ∧
      (endState cfgLive schedClean).watcher = WatcherPC.done none ∧
      (endState cfgLive schedClean).main = MainPC.returned none ∧
      InitServer cfgLive schedClean = some none ∧
      ((∃ t, finishMain (endState cfgLive schedClean) = some t ∧
          t.main = MainPC.returned none) ∧
        ∀ r, (endState cfgLive schedClean).main = MainPC.returned r → r = none)) ∧
    (run (init cfgLive) schedBindFail = some (endState cfgLive schedBindFail) ∧
      (endState cfgLive schedBindFail).main = MainPC.returned (some bindError) ∧
      errorsIs bindError GoError.ErrServerClosed = false) :=
  ⟨⟨by decide, by decide, by decide, by decide, by decide,
      (C4_closed_is_success cfgLive schedClean (endState cfgLive schedClean) (by decide)).1
        (by decide) (by decide)⟩,
    ⟨by decide, by decide,
      (C4_closed_is_success cfgLive schedBindFail (endState cfgLive schedBindFail)
        (by decide)).2 bindError (by decide)⟩⟩

/-- C6 as stated fails: binding fails, and when `InitServer` returns the bind
error the watcher has logged the shutdown message and has called
`server.Shutdown`. -/
theorem C6_counterexample :
    InitServer cfgLive schedBindFail = some (some bindError) ∧
    run (init cfgLive) schedBindFail = some (endState cfgLive schedBindFail) ∧
    (endState cfgLive schedBindFail).serve = ServePC.done bindError ∧
    (endState cfgLive schedBindFail).listener = Listener.unbound ∧
    (endState cfgLive schedBindFail).main = MainPC.returned (some bindError) ∧
    shutdownRecord ∈ (endState cfgLive schedBindFail).log ∧
    (endState cfgLive schedBindFail).inShutdown = true := by
  refine ⟨by decide, by decide, by decide, by decide, by decide, by decide, by decide⟩

/-- C6 (amended). In every run in which the serve goroutine has ended with
an error `e` while the socket was never bound and `InitServer` has returned,
the watcher has logged the shutdown message, has called `server.Shutdown`
(the flag `inShutdown` is set) and has ended with nil, no connection exists,
and `InitServer` has returned `e` unless `errors.Is(e, http.ErrServerClosed)`. -/
theorem C6_shutdown_path_runs (cfg : Config) (evs : List Event) (s : State)
    (e : GoError) (r : Option GoError)
    (h : run (init cfg) evs = some s)
    (hsv : s.serve = ServePC.done e) (hl : s.listener = Listener.unbound)
    (hm : s.main = MainPC.returned r) :
    shutdownRecord ∈ s.log ∧ s.inShutdown = true ∧ s.watcher = WatcherPC.done none ∧
    s.active = 0 ∧ (errorsIs e GoError.ErrServerClosed = false → r = some e) := by
  have hs := reach_inv h
  have hb := run_bindInv (init_bindInv cfg) h
  have hj := hs.join.join (by rw [hm]; simp [MainPC.rank])
  have hw6 := hj.2
  have hwd : s.watcher = WatcherPC.done none := by
    cases hw : s.watcher <;> rw [hw] at hw6 <;> simp [WatcherPC.rank] at hw6
    rename_i w
    rw [hb.clean hl w (Or.inr hw)]
  refine ⟨?_, ?_, hwd, hb.idle hl, ?_⟩
  · apply hs.log.logged (by omega)
    simp [shutdownRecords, shutdownRecord, logCall, written, handed, WithCtx, Logger.Info,
      SlogLogger.logContext, SlogLogger.enabled, defaultLogger, Level.toInt]
  · exact hs.net.flag.mpr (by omega)
  · intro hf
    have hg := gErr_watcher_nil hs hsv hwd
    rw [hs.group.result r hm, hg]
    simp [aggregate, hf]

/-- Witness of C6 (amended): the bind failure of `schedBindFail`. -/
theorem C6_shutdown_path_runs_witness :
    run (init cfgLive) schedBindFail = some (endState cfgLive schedBindFail) ∧
    (endState cfgLive schedBindFail).serve = ServePC.done bindError ∧
    (endState cfgLive schedBindFail).listener = Listener.unbound ∧
    (endState cfgLive schedBindFail).main = MainPC.returned (some bindError) ∧
    (shutdownRecord ∈ (endState cfgLive schedBindFail).log ∧
      (endState cfgLive schedBindFail).inShutdown = true ∧
      (endState cfgLive schedBindFail).watcher = WatcherPC.done none ∧
      (endState cfgLive schedBindFail).active = 0 ∧
      (errorsIs bindError GoError.ErrServerClosed = false → some bindError = some bindError)) :=
  ⟨by decide, by decide, by decide, by decide,
    C6_shutdown_path_runs cfgLive schedBindFail (endState cfgLive schedBindFail) bindError
      (some bindError) (by decide) (by decide) (by decide) (by decide)⟩

/-- C8. In every state of every run in which the calling goroutine has left
`g.Wait()`, in particular when `InitServer` has returned, both goroutines
started with `g.Go` have finished and the listening socket is not open. -/
theorem C8_returns_after_both (cfg : Config) (evs : List Event) (s : State)
    (h : run (init cfg) evs = some s) (hm : s.main ≠ MainPC.waiting) :
    (∃ e, s.serve = ServePC.done e) ∧ (∃ w, s.watcher = WatcherPC.done w) ∧
    s.listener ≠ Listener.open := by
  have hs := reach_inv h
  have hr : 1 ≤ s.main.rank := by
    cases hmm : s.main <;> simp [MainPC.rank] <;> exact hm hmm
  have hj := hs.join.join hr
  refine ⟨?_, ?_, (hs.net.exited (by omega)).1⟩
  · cases hsv : s.serve <;> simp [hsv, ServePC.rank] at hj ⊢
  · cases hw : s.watcher <;> simp [hw, WatcherPC.rank] at hj ⊢

/-- Witness of C8: the orderly shutdown. -/
theorem C8_returns_after_both_witness :
    run (init cfgLive) schedClean = some (endState cfgLive schedClean) ∧
    (endState cfgLive schedClean).main ≠ MainPC.waiting ∧
    ((∃ e, (endState cfgLive schedClean).serve = ServePC.done e) ∧
      (∃ w, (endState cfgLive schedClean).watcher = WatcherPC.done w) ∧
      (endState cfgLive schedClean).listener ≠ Listener.open) :=
  ⟨by decide, by decide,
    C8_returns_after_both cfgLive schedClean (endState cfgLive schedClean) (by decide) (by decide)⟩

/-- C9. In every state of every run the Error-level records of the log are:
the single record of line 58 carrying `e` when `InitServer` has returned the
error `e`, and none otherwise (while the run is going on, and when
`InitServer` has returned nil). -/
theorem C9_one_error_entry (cfg : Config) (evs : List Event) (s : State)
    (h : run (init cfg) evs = some s) :
    errorEntries s.log =
      (match s.main with
       | MainPC.returned (some e) => [errorRecord e]
       | _ => []) := by
  have hs := reach_inv h
  rw [hs.log.errs]
  cases hm : s.main with
  | waiting => rfl
  | failing e => rfl
  | returned r =>
    cases r with
    | none => rfl
    | some e =>
      simp [expectedErrors, errorRecords, errorRecord, logCall, written, handed, WithCtx,
        Logger.Error, SlogLogger.logContext, SlogLogger.enabled, defaultLogger, Level.toInt]

/-- Witness of C9: a run that returns an error, with its one Error-level
record. -/
theorem C9_one_error_entry_witness :
    run (init cfgLive) schedBindFail = some (endState cfgLive schedBindFail) ∧
    (endState cfgLive schedBindFail).main = MainPC.returned (some bindError) ∧
    errorEntries (endState cfgLive schedBindFail).log = [errorRecord bindError] :=
  ⟨by decide, by decide,
    C9_one_error_entry cfgLive schedBindFail (endState cfgLive schedBindFail) (by decide)⟩
theorem drive_of_returned (n : Nat) {s : State} {a : GoError} {w r : Option GoError}
    (hsv : s.serve = ServePC.done a) (hw : s.watcher = WatcherPC.done w)
    (hm : s.main = MainPC.returned r) : drive n s = s := by
  cases n <;> simp [drive, nextEvent, watcherNext, serveNext, mainNext, hsv, hw, hm]

theorem drive_returns (n : Nat) : ∀ s : State, Inv s → QuietInv s → s.incoming.done = true →
    remaining s ≤ n →
    ((drive n s).main = MainPC.returned none ∧
      (drive n s).serve = ServePC.done GoError.ErrServerClosed ∧
      (drive n s).watcher = WatcherPC.done none) ∧
    ∃ evs, run s evs = some (drive n s) ∧
      ∀ ev ∈ evs, ev.quiet = true ∧ ev.internal = true := by
  induction n with
  | zero =>
    intro s hi hq _ hr
    cases hm : s.main with
    | waiting => rw [remaining, hm] at hr; simp [MainPC.rank] at hr
    | failing e => rw [remaining, hm] at hr; simp [MainPC.rank] at hr
    | returned r =>
      obtain ⟨h1, h2, h3⟩ := quiet_result hi hq hm
      subst h1
      exact ⟨⟨hm, h2, h3⟩, [], rfl, by simp⟩
  | succ n ih =>
    intro s hi hq hc hr
    by_cases hm : s.main.rank < 2
    · obtain ⟨ev, hnext, hqu, hint, hsome⟩ := quiet_progress hi hq hc hm
      cases ht : step s ev with
      | none => simp [ht] at hsome
      | some t =>
        have hdec := quiet_decrease hq hint hqu ht
        have hd : drive (n + 1) s = drive n t := by simp [drive, hnext, ht]
        obtain ⟨hres, evs, hrun, hall⟩ :=
          ih t (step_inv hi ht) (step_quietInv hi.net hq hqu ht) (step_incoming_done hc ht)
            (by omega)
        rw [hd]
        refine ⟨hres, ev :: evs, ?_, ?_⟩
        · simp [run, ht, hrun]
        · intro x hx
          rcases List.mem_cons.mp hx with rfl | hx
          · exact ⟨hqu, hint⟩
          · exact hall x hx
    · cases hmm : s.main with
      | waiting => rw [hmm] at hm; simp [MainPC.rank] at hm
      | failing e => rw [hmm] at hm; simp [MainPC.rank] at hm
      | returned r =>
        obtain ⟨h1, h2, h3⟩ := quiet_result hi hq hmm
        subst h1
        rw [drive_of_returned (n + 1) h2 h3 hmm]
        exact ⟨⟨hmm, h2, h3⟩, [], rfl, by simp⟩

theorem remaining_le (s : State) : remaining s ≤ 13 := by
  unfold remaining
  omega

/-- C5 as stated fails: the address is bindable, the caller has cancelled
and no connection has been accepted, but `Accept` fails fatally on the open
listener; the watcher ends with nil and `InitServer` returns the accept
error, not nil. -/
theorem C5_counterexample :
    InitServer cfgLive schedIdleAcceptFail = some (some acceptError) ∧
    run (init cfgLive) schedIdleAcceptFail = some (endState cfgLive schedIdleAcceptFail) ∧
    Event.serveListen none ∈ schedIdleAcceptFail ∧
    Event.cancelIncoming ∈ schedIdleAcceptFail ∧
    Event.accept ∉ schedIdleAcceptFail ∧
    (endState cfgLive schedIdleAcceptFail).incoming.done = true ∧
    (endState cfgLive schedIdleAcceptFail).active = 0 ∧
    (endState cfgLive schedIdleAcceptFail).serve = ServePC.done acceptError ∧
    (endState cfgLive schedIdleAcceptFail).watcher = WatcherPC.done none ∧
    (endState cfgLive schedIdleAcceptFail).main = MainPC.returned (some acceptError) := by
  refine ⟨by decide, by decide, by decide, by decide, by decide, by decide, by decide,
    by decide, by decide, by decide⟩

/-- C5 (amended). Take any run on a bindable address in which `Accept` does
not fail while the listener is open and no connection is accepted, and any
state of it in which the caller's context is done (it may be done from the
start). From that state at most 13 further actions of the goroutines bring
`InitServer` to return nil, with the serve goroutine ended by
`http.ErrServerClosed` and the watcher by nil; if `InitServer` has returned
in that state, it has returned nil in that way; as long as it has not
returned, some goroutine has an enabled action; and every action of a
goroutine lowers the bound `remaining`, so that no schedule can postpone the
return for ever. -/
theorem C5_cancel_without_connections (cfg : Config) (evs : List Event) (s : State)
    (h : run (init cfg) evs = some s)
    (hq : ∀ ev ∈ evs, ev.quiet = true)
    (hc : s.incoming.done = true) :
    ((drive 13 s).main = MainPC.returned none ∧
      (drive 13 s).serve = ServePC.done GoError.ErrServerClosed ∧
      (drive 13 s).watcher = WatcherPC.done none ∧
      ∃ more, run (init cfg) (evs ++ more) = some (drive 13 s) ∧
        ∀ ev ∈ more, ev.quiet = true ∧ ev.internal = true) ∧
    (∀ r, s.main = MainPC.returned r →
      r = none ∧ s.serve = ServePC.done GoError.ErrServerClosed ∧
        s.watcher = WatcherPC.done none) ∧
    (s.main.rank < 2 → ∃ ev, nextEvent s = some ev ∧ ev.quiet = true ∧
      ev.internal = true ∧ (step s ev).isSome = true) ∧
    (∀ ev t, ev.internal = true → ev.quiet = true → step s ev = some t →
      remaining t < remaining s) := by
  have hi := reach_inv h
  have hqi := run_quietInv (init_inv cfg) (init_quietInv cfg) hq h
  obtain ⟨⟨h1, h2, h3⟩, more, hrun, hall⟩ := drive_returns 13 s hi hqi hc (remaining_le s)
  refine ⟨⟨h1, h2, h3, more, run_append h hrun, hall⟩, ?_, ?_, ?_⟩
  · intro r hr
    exact quiet_result hi hqi hr
  · intro hm
    exact quiet_progress hi hqi hc hm
  · intro ev t hint hqu ht
    exact quiet_decrease hqi hint hqu ht

/-- Witness of C5: the server is up with no connection when the caller
cancels; and a call with a context that is already cancelled. -/
theorem C5_cancel_without_connections_witness :
    (run (init cfgLive) schedCancelIdle = some (endState cfgLive schedCancelIdle) ∧
      (∀ ev ∈ schedCancelIdle, ev.quiet = true) ∧
      (endState cfgLive schedCancelIdle).incoming.done = true ∧
      (drive 13 (endState cfgLive schedCancelIdle)).main = MainPC.returned none ∧
      (drive 13 (endState cfgLive schedCancelIdle)).serve =
        ServePC.done GoError.ErrServerClosed ∧
      (drive 13 (endState cfgLive schedCancelIdle)).watcher = WatcherPC.done none) ∧
    (run (init cfgCancelled) [] = some (init cfgCancelled) ∧
      (init cfgCancelled).incoming.done = true ∧
      (drive 13 (init cfgCancelled)).main = MainPC.returned none) :=
  have hw := C5_cancel_without_connections cfgLive schedCancelIdle
    (endState cfgLive schedCancelIdle) (by decide) (by decide) (by decide)
  have hp := C5_cancel_without_connections cfgCancelled [] (init cfgCancelled) rfl
    (by simp) (by decide)
  ⟨⟨by decide, by decide, by decide, hw.1.1, hw.1.2.1, hw.1.2.2.1⟩,
    ⟨rfl, by decide, hp.1.1⟩⟩

end Todo
